import Mathlib

/-!
Shallow embedding of the Narwhal benchmark client (`node/src/benchmark_client.rs`).

Machine integers are modelled as `Nat` with explicit reduction modulo `2 ^ 32`
where the Rust code uses `u32` values; two's-complement wrapping of the `i32`
burst counter agrees with reduction modulo `2 ^ 32` after its cast to `u32`.
The asynchronous send loop is modelled with explicit fuel (the number of
interval ticks simulated) and an oracle `sendOk : Nat → Bool` giving the
outcome of the k-th `transport.send` call; the `'main: loop` of the source
never terminates on its own, so every theorem about a finite prefix of the run
is stated for an arbitrary fuel value.
-/

/-- Big-endian byte encoding of a 32-bit value (`u32::to_be_bytes` /
`BufMut::put_u32`). -/
def u32beBytes (x : Nat) : List Nat :=
  [x / 2 ^ 24 % 256, x / 2 ^ 16 % 256, x / 2 ^ 8 % 256, x % 256]

/-- Big-endian decoding of four bytes (`u32::from_be_bytes`). -/
def u32fromBeBytes : List Nat → Nat
  | [b0, b1, b2, b3] => ((b0 * 256 + b1) * 256 + b2) * 256 + b3
  | _ => 0

/-- Model of `BytesMut::resize(n, 0)` applied to a freshly filled buffer:
truncate or zero-pad to exactly `n` bytes. -/
def bytesResize (l : List Nat) (n : Nat) : List Nat :=
  l.take n ++ List.replicate (n - l.length) 0

/-- The sample-mode tag: `(counter as u32).to_be_bytes()` with the most
significant byte overwritten by `0u8`, then `u32::from_be_bytes` again
(lines 171-173 of the source). -/
def sampleTag (counter : Nat) : Nat :=
  u32fromBeBytes (0 :: (u32beBytes (counter % 2 ^ 32)).drop 1)

/-- The `Client` struct: the parsed configuration. Endpoint addresses are
abstract `Nat` identifiers. -/
structure Config where
  target : Nat
  size : Nat
  rate : Nat
  nodes : List Nat
  port : Nat
  localFlag : Bool
  honest : Bool
  deriving Repr, DecidableEq

/-- The mutable locals of `Client::send`: the burst counter (`counter`,
advanced once per burst), the filler nonce (`r`, advanced once per filler
payload) and the run identifier (`load_client_rand`, never mutated). -/
structure GenState where
  counter : Nat
  r : Nat
  load_client_rand : Nat
  deriving Repr, DecidableEq

/-- The honest-branch payload (lines 171-181): tag bytes, then run-identifier
bytes, zero-resized to `size`. -/
def samplePayload (size counter lcr : Nat) : List Nat :=
  bytesResize (u32beBytes (sampleTag counter) ++ u32beBytes (lcr % 2 ^ 32)) size

/-- The dishonest-branch payload (lines 176-181): `u32::MAX` tag, then nonce
bytes, zero-resized to `size`. -/
def fillerPayload (size r : Nat) : List Nat :=
  bytesResize (u32beBytes (2 ^ 32 - 1) ++ u32beBytes (r % 2 ^ 32)) size

/-- One iteration of the inner `for` body up to the `transport.send` call:
builds the payload bytes and updates the generator state. -/
def emit (cfg : Config) (s : GenState) : List Nat × GenState :=
  if cfg.honest then
    (samplePayload cfg.size s.counter s.load_client_rand, s)
  else
    let r' := (s.r + 1) % 2 ^ 32
    (fillerPayload cfg.size r', { s with r := r' })

/-- Result of one burst (the `for _ in 0..burst` loop): the payloads handed to
`transport.send` in order (the last one possibly failing), the generator state
after the loop, the next global send index, and whether a send failed. -/
structure BurstOut where
  sent : List (List Nat)
  state : GenState
  next : Nat
  failed : Bool
  deriving Repr, DecidableEq

/-- The `for _ in 0..burst` loop, with `n` iterations remaining and `i` the
global index of the next send; on a send failure the loop is abandoned
(`break 'main`). -/
def sendBurst (cfg : Config) (sendOk : Nat → Bool) :
    Nat → GenState → Nat → BurstOut
  | 0, s, i => ⟨[], s, i, false⟩
  | n + 1, s, i =>
    let e := emit cfg s
    if sendOk i then
      let o := sendBurst cfg sendOk n e.2 (i + 1)
      ⟨e.1 :: o.sent, o.state, o.next, o.failed⟩
    else
      ⟨[e.1], e.2, i + 1, true⟩

/-- Result of the `'main: loop`: payloads handed to the transport, final
generator state, and whether the loop exited through `break 'main`. -/
structure LoopOut where
  sent : List (List Nat)
  state : GenState
  failed : Bool
  deriving Repr, DecidableEq

/-- The `'main: loop`, simulated for `fuel` interval ticks (the real loop only
exits through the `break 'main` on a failed send). `counter += 1` runs only
when the burst completed without a send failure. -/
def mainLoop (cfg : Config) (sendOk : Nat → Bool) :
    Nat → GenState → Nat → LoopOut
  | 0, s, _ => ⟨[], s, false⟩
  | fuel + 1, s, i =>
    let o := sendBurst cfg sendOk cfg.rate s i
    if o.failed then ⟨o.sent, o.state, true⟩
    else
      let o' := mainLoop cfg sendOk fuel { o.state with counter := o.state.counter + 1 } o.next
      ⟨o.sent ++ o'.sent, o'.state, o'.failed⟩

/-- Result of `Client::send`: warnings logged, payloads handed to the
transport, final generator state, and the returned `Result<()>`. -/
structure SendResult where
  warnings : List String
  attempted : List (List Nat)
  final : GenState
  result : Except String Unit

/-- `Client::send`. The initial `counter` is `0`; `r0` and `lcr` are the two
`thread_rng().gen::<u32>()` draws, passed as parameters and reduced modulo
`2 ^ 32` as the `u32` type guarantees. The size check precedes the connection
to the target; after a `break 'main` the function still returns `Ok(())`. -/
def clientSend (cfg : Config) (connectOk : Bool) (sendOk : Nat → Bool)
    (fuel r0 lcr : Nat) : SendResult :=
  let s0 : GenState := ⟨0, r0 % 2 ^ 32, lcr % 2 ^ 32⟩
  if cfg.size < 8 then
    ⟨[], [], s0, .error "Transaction size must be at least 8 bytes"⟩
  else if !connectOk then
    ⟨[], [], s0, .error "failed to connect"⟩
  else
    let o := mainLoop cfg sendOk fuel s0 0
    ⟨if o.failed then ["Failed to send transaction"] else [], o.sent, o.state, .ok ()⟩

/-- Connection attempts observable from outside the process. -/
inductive Event where
  | probePeer (a : Nat)
  | connectTarget
  deriving Repr, DecidableEq

/-- Connection attempts performed by `Client::wait`: every node is probed until
its first accepted connection; `attempts a` is the number of failed probes
before node `a` first accepts (`wait` only returns when that number is
finite). The probes of distinct nodes are concurrent; the trace lists them
node by node, one admissible interleaving. -/
def waitEvents (nodes : List Nat) (attempts : Nat → Nat) : List Event :=
  nodes.flatMap fun a => List.replicate (attempts a + 1) (Event.probePeer a)

/-- `main` after argument parsing: `client.wait().await` runs first, then
`client.send()`; `send` attempts the target connection only after the size
check passes. -/
def clientMain (cfg : Config) (attempts : Nat → Nat) (connectOk : Bool)
    (sendOk : Nat → Bool) (fuel r0 lcr : Nat) : List Event × SendResult :=
  (waitEvents cfg.nodes attempts ++ (if cfg.size < 8 then [] else [Event.connectTarget]),
   clientSend cfg connectOk sendOk fuel r0 lcr)

/-- One peer probe of `Client::wait`, with `fuel` bounding the number of
attempts simulated: `accepts t` tells whether the t-th connection attempt
succeeds; the value is the number of failed attempts before the first success,
or `none` when no attempt within `fuel` succeeds (the real loop then keeps
retrying: it has no timeout and no failure outcome). -/
def probe (accepts : Nat → Bool) : Nat → Option Nat
  | 0 => none
  | fuel + 1 =>
    if accepts 0 then some 0
    else (probe (fun t => accepts (t + 1)) fuel).map (· + 1)

/-- Total time slept by one probe, in milliseconds: 10 ms per failed attempt
(`sleep(Duration::from_millis(10))`). -/
def probeSleepMs (accepts : Nat → Bool) (fuel : Nat) : Option Nat :=
  (probe accepts fuel).map (fun k => 10 * k)

/-- The barrier `join_all`: completes exactly when every node's probe has
completed. -/
def awaitAll (nodes : List Nat) (accepts : Nat → Nat → Bool) (fuel : Nat) : Bool :=
  nodes.all fun a => (probe (accepts a) fuel).isSome

/-- The tag of a payload: its first four bytes, decoded big-endian. -/
def payloadTag (p : List Nat) : Nat :=
  u32fromBeBytes (p.take 4)

/-- The discriminator of a payload: bytes 4..8, decoded big-endian. -/
def payloadDisc (p : List Nat) : Nat :=
  u32fromBeBytes ((p.drop 4).take 4)

/-! ### Byte-level helper lemmas -/

theorem u32beBytes_length (x : Nat) : (u32beBytes x).length = 4 := rfl

theorem u32fromBeBytes_u32beBytes (x : Nat) :
    u32fromBeBytes (u32beBytes x) = x % 2 ^ 32 := by
  simp only [u32beBytes, u32fromBeBytes]
  omega

theorem u32beBytes_inj {x y : Nat} (hx : x < 2 ^ 32) (hy : y < 2 ^ 32)
    (h : u32beBytes x = u32beBytes y) : x = y := by
  have := congrArg u32fromBeBytes h
  rwa [u32fromBeBytes_u32beBytes, u32fromBeBytes_u32beBytes,
    Nat.mod_eq_of_lt hx, Nat.mod_eq_of_lt hy] at this

theorem sampleTag_eq (c : Nat) : sampleTag c = c % 2 ^ 24 := by
  simp only [sampleTag, u32beBytes, u32fromBeBytes, List.drop]
  omega

theorem bytesResize_length (l : List Nat) (n : Nat) :
    (bytesResize l n).length = n := by
  simp only [bytesResize, List.length_append, List.length_take, List.length_replicate]
  omega

theorem take4_append (a b : List Nat) (h : a.length = 4) : (a ++ b).take 4 = a :=
  List.take_left' h

theorem drop4_append (a b : List Nat) (h : a.length = 4) : (a ++ b).drop 4 = b :=
  List.drop_left' h

theorem bytesResize_header (a b : List Nat) (n : Nat)
    (ha : a.length = 4) (hb : b.length = 4) (hn : 8 ≤ n) :
    bytesResize (a ++ b) n = a ++ (b ++ List.replicate (n - 8) 0) := by
  have hlen : (a ++ b).length = 8 := by simp [ha, hb]
  simp only [bytesResize, hlen, List.take_of_length_le (by omega : (a ++ b).length ≤ n)]
  simp [List.append_assoc]

theorem samplePayload_eq (size c lcr : Nat) (h : 8 ≤ size) :
    samplePayload size c lcr =
      u32beBytes (sampleTag c) ++ (u32beBytes (lcr % 2 ^ 32) ++ List.replicate (size - 8) 0) :=
  bytesResize_header _ _ _ (u32beBytes_length _) (u32beBytes_length _) h

theorem fillerPayload_eq (size r : Nat) (h : 8 ≤ size) :
    fillerPayload size r =
      u32beBytes (2 ^ 32 - 1) ++ (u32beBytes (r % 2 ^ 32) ++ List.replicate (size - 8) 0) :=
  bytesResize_header _ _ _ (u32beBytes_length _) (u32beBytes_length _) h

theorem samplePayload_tag (size c lcr : Nat) (h : 8 ≤ size) :
    payloadTag (samplePayload size c lcr) = c % 2 ^ 24 := by
  rw [payloadTag, samplePayload_eq size c lcr h,
    take4_append _ _ (u32beBytes_length _), u32fromBeBytes_u32beBytes,
    sampleTag_eq]
  omega

theorem samplePayload_disc (size c lcr : Nat) (h : 8 ≤ size) :
    payloadDisc (samplePayload size c lcr) = lcr % 2 ^ 32 := by
  rw [payloadDisc, samplePayload_eq size c lcr h,
    drop4_append _ _ (u32beBytes_length _), take4_append _ _ (u32beBytes_length _),
    u32fromBeBytes_u32beBytes]
  omega

theorem fillerPayload_tag (size r : Nat) (h : 8 ≤ size) :
    payloadTag (fillerPayload size r) = 2 ^ 32 - 1 := by
  rw [payloadTag, fillerPayload_eq size r h,
    take4_append _ _ (u32beBytes_length _), u32fromBeBytes_u32beBytes]
  omega

theorem fillerPayload_disc (size r : Nat) (h : 8 ≤ size) :
    payloadDisc (fillerPayload size r) = r % 2 ^ 32 := by
  rw [payloadDisc, fillerPayload_eq size r h,
    drop4_append _ _ (u32beBytes_length _), take4_append _ _ (u32beBytes_length _),
    u32fromBeBytes_u32beBytes]
  omega

theorem samplePayload_length (size c lcr : Nat) :
    (samplePayload size c lcr).length = size :=
  bytesResize_length _ _

theorem fillerPayload_length (size r : Nat) :
    (fillerPayload size r).length = size :=
  bytesResize_length _ _

theorem samplePayload_zeroFill (size c lcr : Nat) (h : 8 ≤ size) :
    (samplePayload size c lcr).drop 8 = List.replicate (size - 8) 0 := by
  rw [samplePayload_eq size c lcr h, ← List.append_assoc]
  exact List.drop_left' (by simp [u32beBytes])

theorem fillerPayload_zeroFill (size r : Nat) (h : 8 ≤ size) :
    (fillerPayload size r).drop 8 = List.replicate (size - 8) 0 := by
  rw [fillerPayload_eq size r h, ← List.append_assoc]
  exact List.drop_left' (by simp [u32beBytes])


/-! ### Burst-level helper lemmas -/

theorem emit_state_counter (cfg : Config) (s : GenState) :
    (emit cfg s).2.counter = s.counter := by
  simp only [emit]
  split <;> rfl

theorem emit_state_lcr (cfg : Config) (s : GenState) :
    (emit cfg s).2.load_client_rand = s.load_client_rand := by
  simp only [emit]
  split <;> rfl

theorem emit_honest (cfg : Config) (s : GenState) (h : cfg.honest = true) :
    emit cfg s = (samplePayload cfg.size s.counter s.load_client_rand, s) := by
  simp [emit, h]

theorem emit_filler (cfg : Config) (s : GenState) (h : cfg.honest = false) :
    emit cfg s =
      (fillerPayload cfg.size ((s.r + 1) % 2 ^ 32), { s with r := (s.r + 1) % 2 ^ 32 }) := by
  simp [emit, h]

theorem sendBurst_preserves (cfg : Config) (ok : Nat → Bool) :
    ∀ (n : Nat) (s : GenState) (i : Nat),
      (sendBurst cfg ok n s i).state.counter = s.counter ∧
      (sendBurst cfg ok n s i).state.load_client_rand = s.load_client_rand := by
  intro n
  induction n with
  | zero => intro s i; exact ⟨rfl, rfl⟩
  | succ n ih =>
    intro s i
    simp only [sendBurst]
    split
    · obtain ⟨h1, h2⟩ := ih (emit cfg s).2 (i + 1)
      exact ⟨h1.trans (emit_state_counter cfg s), h2.trans (emit_state_lcr cfg s)⟩
    · exact ⟨emit_state_counter cfg s, emit_state_lcr cfg s⟩

theorem sendBurst_honest (cfg : Config) (ok : Nat → Bool) (h : cfg.honest = true) :
    ∀ (n : Nat) (s : GenState) (i : Nat),
      (sendBurst cfg ok n s i).state = s ∧
      ∀ p ∈ (sendBurst cfg ok n s i).sent,
        p = samplePayload cfg.size s.counter s.load_client_rand := by
  intro n
  induction n with
  | zero => intro s i; exact ⟨rfl, by intro p hp; simp [sendBurst] at hp⟩
  | succ n ih =>
    intro s i
    simp only [sendBurst, emit_honest cfg s h]
    split
    · obtain ⟨hs, hp⟩ := ih s (i + 1)
      refine ⟨hs, ?_⟩
      intro p hp'
      simp only [List.mem_cons] at hp'
      rcases hp' with rfl | hp'
      · rfl
      · exact hp p hp'
    · exact ⟨rfl, by intro p hp; simp only [List.mem_singleton] at hp; exact hp⟩

theorem sendBurst_allOk (cfg : Config) (ok : Nat → Bool) :
    ∀ (n : Nat) (s : GenState) (i : Nat),
      (∀ j, i ≤ j → j < i + n → ok j = true) →
      (sendBurst cfg ok n s i).sent.length = n ∧
      (sendBurst cfg ok n s i).failed = false ∧
      (sendBurst cfg ok n s i).next = i + n := by
  intro n
  induction n with
  | zero => intro s i _; exact ⟨rfl, rfl, rfl⟩
  | succ n ih =>
    intro s i hok
    have hi : ok i = true := hok i (Nat.le_refl i) (by omega)
    simp only [sendBurst, hi, if_true]
    obtain ⟨h1, h2, h3⟩ := ih (emit cfg s).2 (i + 1) (fun j hj1 hj2 => hok j (by omega) (by omega))
    refine ⟨?_, h2, h3.trans (by omega)⟩
    simp [h1]

theorem sendBurst_fail (cfg : Config) (ok : Nat → Bool) :
    ∀ (n : Nat) (s : GenState) (i k : Nat),
      i ≤ k → k < i + n → (∀ j, j < k → ok j = true) → ok k = false →
      (sendBurst cfg ok n s i).sent.length = k + 1 - i ∧
      (sendBurst cfg ok n s i).failed = true := by
  intro n
  induction n with
  | zero => intro s i k h1 h2 _ _; omega
  | succ n ih =>
    intro s i k h1 h2 hok hk
    by_cases hik : i = k
    · subst hik
      simp only [sendBurst]
      split
      · simp_all
      · exact ⟨by simp only [List.length_cons, List.length_nil]; omega, rfl⟩
    · have hi : ok i = true := hok i (by omega)
      simp only [sendBurst, hi, if_true]
      obtain ⟨h3, h4⟩ := ih (emit cfg s).2 (i + 1) k (by omega) (by omega) hok hk
      refine ⟨?_, h4⟩
      simp only [List.length_cons, h3]
      omega

theorem sendBurst_filler (cfg : Config) (ok : Nat → Bool) (h : cfg.honest = false) :
    ∀ (n : Nat) (s : GenState) (i : Nat), s.r < 2 ^ 32 →
      ∃ L, (sendBurst cfg ok n s i).sent =
          (List.range L).map (fun k => fillerPayload cfg.size ((s.r + 1 + k) % 2 ^ 32)) ∧
        (sendBurst cfg ok n s i).state.r = (s.r + L) % 2 ^ 32 := by
  intro n
  induction n with
  | zero =>
    intro s i hr
    refine ⟨0, rfl, ?_⟩
    show s.r = (s.r + 0) % 2 ^ 32
    omega
  | succ n ih =>
    intro s i hr
    simp only [sendBurst, emit_filler cfg s h]
    have hr' : (s.r + 1) % 2 ^ 32 < 2 ^ 32 := Nat.mod_lt _ (by norm_num)
    split
    · obtain ⟨L, h1, h2⟩ := ih { s with r := (s.r + 1) % 2 ^ 32 } (i + 1) hr'
      refine ⟨L + 1, ?_, ?_⟩
      · rw [List.range_succ_eq_map, List.map_cons, List.map_map]
        refine List.cons_eq_cons.mpr ⟨by norm_num, ?_⟩
        rw [h1]
        apply List.map_congr_left
        intro k _
        simp only [Function.comp_apply, Nat.succ_eq_add_one]
        congr 1
        omega
      · rw [h2]
        show ((s.r + 1) % 2 ^ 32 + L) % 2 ^ 32 = (s.r + (L + 1)) % 2 ^ 32
        omega
    · exact ⟨1, by simp [List.range_succ], rfl⟩

/-! ### Loop-level helper lemmas -/

theorem mainLoop_allOk (cfg : Config) (ok : Nat → Bool) (hok : ∀ j, ok j = true) :
    ∀ (fuel : Nat) (s : GenState) (i : Nat),
      (mainLoop cfg ok fuel s i).failed = false ∧
      (mainLoop cfg ok fuel s i).state.counter = s.counter + fuel ∧
      (mainLoop cfg ok fuel s i).state.load_client_rand = s.load_client_rand := by
  intro fuel
  induction fuel with
  | zero => intro s i; exact ⟨rfl, rfl, rfl⟩
  | succ fuel ih =>
    intro s i
    obtain ⟨hl, hf, hn⟩ := sendBurst_allOk cfg ok cfg.rate s i (fun j _ _ => hok j)
    obtain ⟨hc, hr⟩ := sendBurst_preserves cfg ok cfg.rate s i
    simp only [mainLoop, hf, Bool.false_eq_true, if_false]
    obtain ⟨ih1, ih2, ih3⟩ := ih { (sendBurst cfg ok cfg.rate s i).state with
      counter := (sendBurst cfg ok cfg.rate s i).state.counter + 1 } (sendBurst cfg ok cfg.rate s i).next
    refine ⟨ih1, ?_, ?_⟩
    · rw [ih2]
      simp only [hc]
      omega
    · rw [ih3]
      exact hr

theorem mainLoop_rate0 (cfg : Config) (ok : Nat → Bool) (h : cfg.rate = 0) :
    ∀ (fuel : Nat) (s : GenState) (i : Nat),
      (mainLoop cfg ok fuel s i).sent = [] ∧
      (mainLoop cfg ok fuel s i).failed = false ∧
      (mainLoop cfg ok fuel s i).state.counter = s.counter + fuel := by
  intro fuel
  induction fuel with
  | zero => intro s i; exact ⟨rfl, rfl, rfl⟩
  | succ fuel ih =>
    intro s i
    simp only [mainLoop, h, sendBurst, Bool.false_eq_true, if_false]
    obtain ⟨ih1, ih2, ih3⟩ := ih { s with counter := s.counter + 1 } i
    refine ⟨by simp [ih1], ih2, ?_⟩
    rw [ih3]
    show s.counter + 1 + fuel = s.counter + (fuel + 1)
    omega

theorem mainLoop_honest_mem (cfg : Config) (ok : Nat → Bool) (h : cfg.honest = true) :
    ∀ (fuel : Nat) (s : GenState) (i : Nat),
      ∀ p ∈ (mainLoop cfg ok fuel s i).sent,
        ∃ c, p = samplePayload cfg.size c s.load_client_rand := by
  intro fuel
  induction fuel with
  | zero => intro s i p hp; simp [mainLoop] at hp
  | succ fuel ih =>
    intro s i p hp
    obtain ⟨hst, hmem⟩ := sendBurst_honest cfg ok h cfg.rate s i
    simp only [mainLoop] at hp
    split at hp
    · exact ⟨s.counter, hmem p hp⟩
    · simp only [List.mem_append] at hp
      rcases hp with hp | hp
      · exact ⟨s.counter, hmem p hp⟩
      · obtain ⟨c, hc⟩ := ih { (sendBurst cfg ok cfg.rate s i).state with
          counter := (sendBurst cfg ok cfg.rate s i).state.counter + 1 }
          (sendBurst cfg ok cfg.rate s i).next p hp
        rw [hst] at hc
        exact ⟨c, hc⟩

theorem mainLoop_honest_allOk (cfg : Config) (ok : Nat → Bool)
    (hh : cfg.honest = true) (hok : ∀ j, ok j = true) :
    ∀ (fuel : Nat) (s : GenState) (i : Nat),
      (mainLoop cfg ok fuel s i).sent =
        (List.range fuel).flatMap
          (fun j => List.replicate cfg.rate
            (samplePayload cfg.size (s.counter + j) s.load_client_rand)) := by
  intro fuel
  induction fuel with
  | zero => intro s i; rfl
  | succ fuel ih =>
    intro s i
    obtain ⟨hl, hf, hn⟩ := sendBurst_allOk cfg ok cfg.rate s i (fun j _ _ => hok j)
    obtain ⟨hst, hmem⟩ := sendBurst_honest cfg ok hh cfg.rate s i
    simp only [mainLoop, hf, Bool.false_eq_true, if_false]
    have hburst : (sendBurst cfg ok cfg.rate s i).sent =
        List.replicate cfg.rate (samplePayload cfg.size s.counter s.load_client_rand) :=
      List.eq_replicate_iff.mpr ⟨hl, hmem⟩
    rw [hburst, hst]
    have hrec := ih { s with counter := s.counter + 1 } (sendBurst cfg ok cfg.rate s i).next
    rw [hrec]
    rw [List.range_succ_eq_map, List.flatMap_cons, List.flatMap_map]
    have harg : (fun j => List.replicate cfg.rate
          (samplePayload cfg.size (({ s with counter := s.counter + 1 } : GenState).counter + j)
            ({ s with counter := s.counter + 1 } : GenState).load_client_rand)) =
        (fun j => List.replicate cfg.rate
          (samplePayload cfg.size (s.counter + j) s.load_client_rand)) ∘ Nat.succ := by
      funext j
      simp only [Function.comp_apply, Nat.succ_eq_add_one]
      congr 2
      omega
    rw [harg]
    simp [Function.comp_def, Nat.succ_eq_add_one]

theorem mainLoop_filler (cfg : Config) (ok : Nat → Bool) (h : cfg.honest = false) :
    ∀ (fuel : Nat) (s : GenState) (i : Nat), s.r < 2 ^ 32 →
      ∃ L, (mainLoop cfg ok fuel s i).sent =
          (List.range L).map (fun k => fillerPayload cfg.size ((s.r + 1 + k) % 2 ^ 32)) ∧
        (mainLoop cfg ok fuel s i).state.r = (s.r + L) % 2 ^ 32 := by
  intro fuel
  induction fuel with
  | zero =>
    intro s i hr
    refine ⟨0, rfl, ?_⟩
    show s.r = (s.r + 0) % 2 ^ 32
    omega
  | succ fuel ih =>
    intro s i hr
    obtain ⟨L1, hb1, hb2⟩ := sendBurst_filler cfg ok h cfg.rate s i hr
    simp only [mainLoop]
    split
    · exact ⟨L1, hb1, hb2⟩
    · dsimp only
      have hr' : ({ (sendBurst cfg ok cfg.rate s i).state with
          counter := (sendBurst cfg ok cfg.rate s i).state.counter + 1 } : GenState).r < 2 ^ 32 := by
        show (sendBurst cfg ok cfg.rate s i).state.r < 2 ^ 32
        rw [hb2]
        exact Nat.mod_lt _ (by norm_num)
      obtain ⟨L2, hc1, hc2⟩ := ih { (sendBurst cfg ok cfg.rate s i).state with
        counter := (sendBurst cfg ok cfg.rate s i).state.counter + 1 } (sendBurst cfg ok cfg.rate s i).next hr'
      refine ⟨L1 + L2, ?_, ?_⟩
      · rw [hb1, hc1, List.range_add, List.map_append, List.map_map]
        congr 1
        apply List.map_congr_left
        intro k _
        simp only [Function.comp_apply]
        congr 1
        show ((sendBurst cfg ok cfg.rate s i).state.r + 1 + k) % 2 ^ 32 = (s.r + 1 + (L1 + k)) % 2 ^ 32
        rw [hb2]
        omega
      · rw [hc2]
        show (((sendBurst cfg ok cfg.rate s i).state.r : Nat) + L2) % 2 ^ 32 = (s.r + (L1 + L2)) % 2 ^ 32
        rw [hb2]
        omega

theorem mainLoop_fail (cfg : Config) (ok : Nat → Bool) :
    ∀ (fuel : Nat) (s : GenState) (i k : Nat),
      i ≤ k → k < i + fuel * cfg.rate →
      (∀ j, j < k → ok j = true) → ok k = false →
      (mainLoop cfg ok fuel s i).sent.length = k + 1 - i ∧
      (mainLoop cfg ok fuel s i).failed = true := by
  intro fuel
  induction fuel with
  | zero => intro s i k h1 h2 _ _; simp at h2; omega
  | succ fuel ih =>
    intro s i k h1 h2 hok hk
    have hmul : (fuel + 1) * cfg.rate = fuel * cfg.rate + cfg.rate := by ring
    by_cases hcase : k < i + cfg.rate
    · obtain ⟨hb1, hb2⟩ := sendBurst_fail cfg ok cfg.rate s i k h1 hcase hok hk
      simp only [mainLoop, hb2, if_true]
      exact ⟨hb1, trivial⟩
    · obtain ⟨hb1, hb2, hb3⟩ := sendBurst_allOk cfg ok cfg.rate s i
        (fun j hj1 hj2 => hok j (by omega))
      simp only [mainLoop, hb2, Bool.false_eq_true, if_false]
      obtain ⟨ihl, ihf⟩ := ih { (sendBurst cfg ok cfg.rate s i).state with
          counter := (sendBurst cfg ok cfg.rate s i).state.counter + 1 }
        (sendBurst cfg ok cfg.rate s i).next k (by omega) (by rw [hb3]; omega) hok hk
      refine ⟨?_, ihf⟩
      rw [List.length_append, hb1, ihl, hb3]
      omega

theorem flatMap_replicate_one {α β : Type} (l : List α) (f : α → β) :
    (l.flatMap fun j => List.replicate 1 (f j)) = l.map f := by
  induction l with
  | nil => rfl
  | cons a l ih => simp only [List.flatMap_cons, List.map_cons, ih]; rfl

/-! ### Send-level, trace-level and barrier helper lemmas -/

theorem clientSend_sizeErr (cfg : Config) (connectOk : Bool) (ok : Nat → Bool)
    (fuel r0 lcr : Nat) (h : cfg.size < 8) :
    clientSend cfg connectOk ok fuel r0 lcr =
      ⟨[], [], ⟨0, r0 % 2 ^ 32, lcr % 2 ^ 32⟩,
        .error "Transaction size must be at least 8 bytes"⟩ := by
  simp [clientSend, h]

theorem clientSend_run (cfg : Config) (ok : Nat → Bool) (fuel r0 lcr : Nat)
    (h : ¬ cfg.size < 8) :
    clientSend cfg true ok fuel r0 lcr =
      ⟨if (mainLoop cfg ok fuel ⟨0, r0 % 2 ^ 32, lcr % 2 ^ 32⟩ 0).failed then
          ["Failed to send transaction"] else [],
        (mainLoop cfg ok fuel ⟨0, r0 % 2 ^ 32, lcr % 2 ^ 32⟩ 0).sent,
        (mainLoop cfg ok fuel ⟨0, r0 % 2 ^ 32, lcr % 2 ^ 32⟩ 0).state, .ok ()⟩ := by
  simp [clientSend, h]

theorem connectTarget_not_mem_waitEvents (nodes : List Nat) (attempts : Nat → Nat) :
    Event.connectTarget ∉ waitEvents nodes attempts := by
  intro hmem
  simp only [waitEvents, List.mem_flatMap] at hmem
  obtain ⟨a, _, hmem⟩ := hmem
  exact Event.noConfusion (List.mem_replicate.mp hmem).2

theorem probe_spec :
    ∀ (fuel : Nat) (accepts : Nat → Bool) (k : Nat), probe accepts fuel = some k →
      accepts k = true ∧ ∀ t, t < k → accepts t = false := by
  intro fuel
  induction fuel with
  | zero => intro accepts k h; exact Option.noConfusion h
  | succ fuel ih =>
    intro accepts k h
    simp only [probe] at h
    by_cases h0 : accepts 0 = true
    · rw [if_pos h0] at h
      obtain rfl : (0 : Nat) = k := Option.some.inj h
      exact ⟨h0, by omega⟩
    · rw [if_neg h0] at h
      obtain ⟨k', hk', rfl⟩ := Option.map_eq_some'.mp h
      obtain ⟨h1, h2⟩ := ih (fun t => accepts (t + 1)) k' hk'
      refine ⟨h1, ?_⟩
      intro t ht
      cases t with
      | zero => exact Bool.eq_false_iff.mpr h0
      | succ t => exact h2 t (by omega)

theorem probe_none (accepts : Nat → Bool) (h : ∀ t, accepts t = false) :
    ∀ fuel, probe accepts fuel = none := by
  intro fuel
  induction fuel generalizing accepts with
  | zero => rfl
  | succ fuel ih =>
    simp only [probe, h 0, Bool.false_eq_true, if_false]
    rw [ih (fun t => accepts (t + 1)) (fun t => h (t + 1))]
    rfl

theorem mainLoop_filler_disc (cfg : Config) (ok : Nat → Bool) (s : GenState)
    (i fuel : Nat) (hh : cfg.honest = false) (hs : 8 ≤ cfg.size) (hr : s.r < 2 ^ 32) :
    ∀ k p, (mainLoop cfg ok fuel s i).sent[k]? = some p →
      payloadDisc p = (s.r + 1 + k) % 2 ^ 32 := by
  obtain ⟨L, hsent, _⟩ := mainLoop_filler cfg ok hh fuel s i hr
  intro k p hp
  rw [hsent, List.getElem?_map] at hp
  by_cases hk : k < L
  · rw [List.getElem?_range hk] at hp
    obtain rfl : fillerPayload cfg.size ((s.r + 1 + k) % 2 ^ 32) = p := Option.some.inj hp
    rw [fillerPayload_disc _ _ hs]
    omega
  · rw [List.getElem?_eq_none (by simpa using hk)] at hp
    exact Option.noConfusion hp

/-! ### Claim theorems -/

/-- Claim C1: in sample (honest) mode the burst counter advances exactly once
per burst, not once per payload — the generator state is untouched inside a
burst and every payload of the burst carries the same tag value, the counter
after `fuel` failure-free bursts being the initial counter plus `fuel` — and
every payload of the entire run carries the same discriminator, equal to the
32-bit run identifier `load_client_rand` chosen once at scheduler start. -/
theorem sample_tag_once_per_burst (cfg : Config) (ok : Nat → Bool) (s : GenState)
    (i fuel : Nat) (hh : cfg.honest = true) (hs : 8 ≤ cfg.size)
    (hl : s.load_client_rand < 2 ^ 32) :
    ((sendBurst cfg ok cfg.rate s i).state = s ∧
      ∀ p ∈ (sendBurst cfg ok cfg.rate s i).sent, payloadTag p = s.counter % 2 ^ 24) ∧
    (∀ p ∈ (mainLoop cfg ok fuel s i).sent, payloadDisc p = s.load_client_rand) ∧
    ((∀ j, ok j = true) →
      (mainLoop cfg ok fuel s i).state.counter = s.counter + fuel) := by
  obtain ⟨hst, hmem⟩ := sendBurst_honest cfg ok hh cfg.rate s i
  refine ⟨⟨hst, ?_⟩, ?_, fun hok => (mainLoop_allOk cfg ok hok fuel s i).2.1⟩
  · intro p hp
    rw [hmem p hp]
    exact samplePayload_tag cfg.size s.counter s.load_client_rand hs
  · intro p hp
    obtain ⟨c, hc⟩ := mainLoop_honest_mem cfg ok hh fuel s i p hp
    rw [hc, samplePayload_disc cfg.size c s.load_client_rand hs, Nat.mod_eq_of_lt hl]

/-- Claim C1 witness: a concrete honest run of two bursts of two payloads. -/
theorem sample_tag_once_per_burst_witness :
    ((sendBurst ⟨0, 8, 2, [], 0, false, true⟩ (fun _ => true) 2 ⟨0, 0, 7⟩ 0).state = ⟨0, 0, 7⟩ ∧
      ∀ p ∈ (sendBurst ⟨0, 8, 2, [], 0, false, true⟩ (fun _ => true) 2 ⟨0, 0, 7⟩ 0).sent,
        payloadTag p = 0 % 2 ^ 24) ∧
    (∀ p ∈ (mainLoop ⟨0, 8, 2, [], 0, false, true⟩ (fun _ => true) 3 ⟨0, 0, 7⟩ 0).sent,
      payloadDisc p = 7) ∧
    ((∀ j : Nat, (fun (_ : Nat) => true) j = true) →
      (mainLoop ⟨0, 8, 2, [], 0, false, true⟩ (fun _ => true) 3 ⟨0, 0, 7⟩ 0).state.counter = 0 + 3) :=
  sample_tag_once_per_burst ⟨0, 8, 2, [], 0, false, true⟩ (fun _ => true) ⟨0, 0, 7⟩ 0 3
    rfl (by norm_num) (by norm_num)

/-- Claim C2: in filler (dishonest) mode every payload's tag equals the maximum
32-bit value, the k-th payload of the run carries discriminator
(r + 1 + k) mod 2^32 — a counter incremented by exactly one per payload,
shared across the run and wrapping at overflow — so any two payloads among the
first 2^32 emitted carry distinct discriminators. -/
theorem filler_tag_max_disc_distinct (cfg : Config) (ok : Nat → Bool) (s : GenState)
    (i fuel : Nat) (hh : cfg.honest = false) (hs : 8 ≤ cfg.size) (hr : s.r < 2 ^ 32) :
    (∀ p ∈ (mainLoop cfg ok fuel s i).sent, payloadTag p = 2 ^ 32 - 1) ∧
    (∀ k p, (mainLoop cfg ok fuel s i).sent[k]? = some p →
      payloadDisc p = (s.r + 1 + k) % 2 ^ 32) ∧
    (∀ k1 k2 p1 p2, k1 < 2 ^ 32 → k2 < 2 ^ 32 → k1 ≠ k2 →
      (mainLoop cfg ok fuel s i).sent[k1]? = some p1 →
      (mainLoop cfg ok fuel s i).sent[k2]? = some p2 →
      payloadDisc p1 ≠ payloadDisc p2) := by
  obtain ⟨L, hsent, _⟩ := mainLoop_filler cfg ok hh fuel s i hr
  have hdisc := mainLoop_filler_disc cfg ok s i fuel hh hs hr
  refine ⟨?_, hdisc, ?_⟩
  · intro p hp
    rw [hsent] at hp
    obtain ⟨k, _, rfl⟩ := List.mem_map.mp hp
    exact fillerPayload_tag _ _ hs
  · intro k1 k2 p1 p2 hk1 hk2 hne hp1 hp2
    rw [hdisc k1 p1 hp1, hdisc k2 p2 hp2]
    omega

/-- Claim C2 witness: a concrete filler run of two bursts of two payloads. -/
theorem filler_tag_max_disc_distinct_witness :
    (∀ p ∈ (mainLoop ⟨0, 8, 2, [], 0, false, false⟩ (fun _ => true) 2 ⟨0, 5, 0⟩ 0).sent,
      payloadTag p = 2 ^ 32 - 1) ∧
    (∀ (k : Nat) (p : List Nat),
      (mainLoop ⟨0, 8, 2, [], 0, false, false⟩ (fun _ => true) 2 ⟨0, 5, 0⟩ 0).sent[k]? = some p →
      payloadDisc p = (5 + 1 + k) % 2 ^ 32) ∧
    (∀ (k1 k2 : Nat) (p1 p2 : List Nat), k1 < 2 ^ 32 → k2 < 2 ^ 32 → k1 ≠ k2 →
      (mainLoop ⟨0, 8, 2, [], 0, false, false⟩ (fun _ => true) 2 ⟨0, 5, 0⟩ 0).sent[k1]? = some p1 →
      (mainLoop ⟨0, 8, 2, [], 0, false, false⟩ (fun _ => true) 2 ⟨0, 5, 0⟩ 0).sent[k2]? = some p2 →
      payloadDisc p1 ≠ payloadDisc p2) :=
  filler_tag_max_disc_distinct ⟨0, 8, 2, [], 0, false, false⟩ (fun _ => true) ⟨0, 5, 0⟩ 0 2
    rfl (by norm_num) (by norm_num)

/-- Claim C3: every burst that completes without a transport failure sends
exactly `rate` payloads, and with rate 0 every burst sends zero payloads while
the scheduler keeps ticking: the burst counter still advances once per tick. -/
theorem burst_sends_exactly_rate (cfg : Config) (ok : Nat → Bool) (s : GenState)
    (i fuel : Nat) (hok : ∀ j, i ≤ j → j < i + cfg.rate → ok j = true) :
    ((sendBurst cfg ok cfg.rate s i).sent.length = cfg.rate ∧
      (sendBurst cfg ok cfg.rate s i).failed = false) ∧
    (cfg.rate = 0 →
      (mainLoop cfg ok fuel s i).sent = [] ∧
      (mainLoop cfg ok fuel s i).failed = false ∧
      (mainLoop cfg ok fuel s i).state.counter = s.counter + fuel) := by
  obtain ⟨h1, h2, _⟩ := sendBurst_allOk cfg ok cfg.rate s i hok
  exact ⟨⟨h1, h2⟩, fun h0 => mainLoop_rate0 cfg ok h0 fuel s i⟩

/-- Claim C3 witness: a concrete burst of three payloads and a concrete
zero-rate run of two ticks. -/
theorem burst_sends_exactly_rate_witness :
    (((sendBurst ⟨0, 8, 3, [], 0, false, true⟩ (fun _ => true) 3 ⟨0, 0, 7⟩ 0).sent.length = 3 ∧
      (sendBurst ⟨0, 8, 3, [], 0, false, true⟩ (fun _ => true) 3 ⟨0, 0, 7⟩ 0).failed = false) ∧
    (3 = 0 →
      (mainLoop ⟨0, 8, 3, [], 0, false, true⟩ (fun _ => true) 2 ⟨0, 0, 7⟩ 0).sent = [] ∧
      (mainLoop ⟨0, 8, 3, [], 0, false, true⟩ (fun _ => true) 2 ⟨0, 0, 7⟩ 0).failed = false ∧
      (mainLoop ⟨0, 8, 3, [], 0, false, true⟩ (fun _ => true) 2 ⟨0, 0, 7⟩ 0).state.counter = 0 + 2)) ∧
    ((mainLoop ⟨0, 8, 0, [], 0, false, true⟩ (fun _ => true) 2 ⟨0, 0, 7⟩ 0).sent = [] ∧
      (mainLoop ⟨0, 8, 0, [], 0, false, true⟩ (fun _ => true) 2 ⟨0, 0, 7⟩ 0).failed = false ∧
      (mainLoop ⟨0, 8, 0, [], 0, false, true⟩ (fun _ => true) 2 ⟨0, 0, 7⟩ 0).state.counter = 0 + 2) :=
  ⟨burst_sends_exactly_rate ⟨0, 8, 3, [], 0, false, true⟩ (fun _ => true) ⟨0, 0, 7⟩ 0 2
      (fun _ _ _ => rfl),
    (burst_sends_exactly_rate ⟨0, 8, 0, [], 0, false, true⟩ (fun _ => true) ⟨0, 0, 7⟩ 0 2
      (fun _ _ _ => rfl)).2 rfl⟩

/-- Claim C4: for size ≥ 8, in both modes, every emitted payload has length
exactly `size` and consists of four tag bytes, four discriminator bytes, and
zeros from byte 8 up to `size`. -/
theorem payload_layout (cfg : Config) (s : GenState) (hs : 8 ≤ cfg.size) :
    (emit cfg s).1.length = cfg.size ∧
    ∃ tag disc, tag < 2 ^ 32 ∧ disc < 2 ^ 32 ∧
      (emit cfg s).1 = u32beBytes tag ++ (u32beBytes disc ++ List.replicate (cfg.size - 8) 0) := by
  by_cases hh : cfg.honest = true
  · rw [emit_honest cfg s hh]
    refine ⟨samplePayload_length _ _ _, sampleTag s.counter, s.load_client_rand % 2 ^ 32,
      ?_, Nat.mod_lt _ (by norm_num), samplePayload_eq _ _ _ hs⟩
    rw [sampleTag_eq]
    calc s.counter % 2 ^ 24 < 2 ^ 24 := Nat.mod_lt _ (by norm_num)
      _ < 2 ^ 32 := by norm_num
  · rw [emit_filler cfg s (Bool.not_eq_true cfg.honest ▸ hh)]
    refine ⟨fillerPayload_length _ _, 2 ^ 32 - 1, (s.r + 1) % 2 ^ 32 % 2 ^ 32,
      by norm_num, Nat.mod_lt _ (by norm_num), fillerPayload_eq _ _ hs⟩

/-- Claim C4 witness: concrete payloads of size 11 in both modes. -/
theorem payload_layout_witness :
    ((emit ⟨0, 11, 1, [], 0, false, true⟩ ⟨2, 5, 7⟩).1.length = 11 ∧
      ∃ tag disc, tag < 2 ^ 32 ∧ disc < 2 ^ 32 ∧
        (emit ⟨0, 11, 1, [], 0, false, true⟩ ⟨2, 5, 7⟩).1 =
          u32beBytes tag ++ (u32beBytes disc ++ List.replicate (11 - 8) 0)) ∧
    ((emit ⟨0, 11, 1, [], 0, false, false⟩ ⟨2, 5, 7⟩).1.length = 11 ∧
      ∃ tag disc, tag < 2 ^ 32 ∧ disc < 2 ^ 32 ∧
        (emit ⟨0, 11, 1, [], 0, false, false⟩ ⟨2, 5, 7⟩).1 =
          u32beBytes tag ++ (u32beBytes disc ++ List.replicate (11 - 8) 0)) :=
  ⟨payload_layout ⟨0, 11, 1, [], 0, false, true⟩ ⟨2, 5, 7⟩ (by norm_num),
    payload_layout ⟨0, 11, 1, [], 0, false, false⟩ ⟨2, 5, 7⟩ (by norm_num)⟩

/-- Claim C9: in sample mode all payloads emitted within one burst are
byte-for-byte identical to each other — the generator does not make sample
payloads pairwise distinct. -/
theorem sample_burst_payloads_identical (cfg : Config) (ok : Nat → Bool)
    (s : GenState) (i n : Nat) (hh : cfg.honest = true) :
    ∀ p ∈ (sendBurst cfg ok n s i).sent, ∀ q ∈ (sendBurst cfg ok n s i).sent, p = q := by
  intro p hp q hq
  obtain ⟨_, hmem⟩ := sendBurst_honest cfg ok hh n s i
  rw [hmem p hp, hmem q hq]

/-- Claim C9 witness: a concrete burst of three pairwise-identical sample
payloads. -/
theorem sample_burst_payloads_identical_witness :
    (∀ p ∈ (sendBurst ⟨0, 9, 3, [], 0, false, true⟩ (fun _ => true) 3 ⟨1, 0, 7⟩ 0).sent,
      ∀ q ∈ (sendBurst ⟨0, 9, 3, [], 0, false, true⟩ (fun _ => true) 3 ⟨1, 0, 7⟩ 0).sent, p = q) ∧
    (sendBurst ⟨0, 9, 3, [], 0, false, true⟩ (fun _ => true) 3 ⟨1, 0, 7⟩ 0).sent.length = 3 :=
  ⟨sample_burst_payloads_identical ⟨0, 9, 3, [], 0, false, true⟩ (fun _ => true) ⟨1, 0, 7⟩ 0 3 rfl,
    rfl⟩

/-- Claim C5 counterexample: with the transport failing on the very first
send, `Client::send` logs the warning and stops, but still returns `Ok(())` —
the run does not end with a non-zero-exit equivalent. -/
theorem send_failure_returns_ok_cex :
    (clientSend ⟨0, 8, 1, [], 0, false, true⟩ true (fun _ => false) 1 0 0).result =
      Except.ok () ∧
    (clientSend ⟨0, 8, 1, [], 0, false, true⟩ true (fun _ => false) 1 0 0).warnings =
      ["Failed to send transaction"] :=
  ⟨rfl, rfl⟩

/-- Claim C5 (amended): if the first transport failure happens on global send
k within the simulated window, the scheduler logs the warning, attempts no
further send (exactly k + 1 payloads are handed to the transport), and
`Client::send` returns `Ok(())`: the run ends cleanly with a zero exit, not a
non-zero-exit equivalent. -/
theorem send_failure_stops_and_warns (cfg : Config) (ok : Nat → Bool)
    (fuel r0 lcr k : Nat) (hs : ¬ cfg.size < 8) (hk : k < fuel * cfg.rate)
    (hok : ∀ j, j < k → ok j = true) (hfail : ok k = false) :
    (clientSend cfg true ok fuel r0 lcr).attempted.length = k + 1 ∧
    (clientSend cfg true ok fuel r0 lcr).warnings = ["Failed to send transaction"] ∧
    (clientSend cfg true ok fuel r0 lcr).result = Except.ok () := by
  obtain ⟨hlen, hflag⟩ := mainLoop_fail cfg ok fuel ⟨0, r0 % 2 ^ 32, lcr % 2 ^ 32⟩ 0 k
    (by omega) (by omega) hok hfail
  rw [clientSend_run cfg ok fuel r0 lcr hs]
  refine ⟨?_, ?_, rfl⟩
  · show (mainLoop cfg ok fuel ⟨0, r0 % 2 ^ 32, lcr % 2 ^ 32⟩ 0).sent.length = k + 1
    omega
  · show (if (mainLoop cfg ok fuel ⟨0, r0 % 2 ^ 32, lcr % 2 ^ 32⟩ 0).failed then
        ["Failed to send transaction"] else []) = ["Failed to send transaction"]
    rw [hflag]
    rfl

/-- Claim C5 witness: the transport fails on the fourth send of a
two-payloads-per-burst run. -/
theorem send_failure_stops_and_warns_witness :
    (clientSend ⟨0, 8, 2, [], 0, false, false⟩ true (fun j => j < 3) 2 0 0).attempted.length =
      3 + 1 ∧
    (clientSend ⟨0, 8, 2, [], 0, false, false⟩ true (fun j => j < 3) 2 0 0).warnings =
      ["Failed to send transaction"] ∧
    (clientSend ⟨0, 8, 2, [], 0, false, false⟩ true (fun j => j < 3) 2 0 0).result =
      Except.ok () :=
  send_failure_stops_and_warns ⟨0, 8, 2, [], 0, false, false⟩ (fun j => j < 3) 2 0 0 3
    (by norm_num) (by norm_num) (fun j hj => by simp; omega) (by simp)

/-- Claim C6 counterexample: with size 4 and one listed peer, the run is
rejected with the size-validation error, but a connection to the peer has
already been attempted: the reachability barrier runs before the size check,
so the rejection does not precede every connection attempt. -/
theorem size_check_after_peer_probe_cex :
    (clientMain ⟨0, 4, 1, [7], 0, false, true⟩ (fun _ => 0) true (fun _ => true) 1 0 0).1 =
      [Event.probePeer 7] ∧
    (clientMain ⟨0, 4, 1, [7], 0, false, true⟩ (fun _ => 0) true (fun _ => true) 1 0 0).2.result =
      Except.error "Transaction size must be at least 8 bytes" :=
  ⟨rfl, rfl⟩

/-- Claim C6 (amended): every configuration with size < 8 fails with the fatal
size-validation error, no payload is ever handed to the transport and no
connection to the target is ever attempted — but the peer reachability barrier
runs before the size check, so connections to listed peers may already have
been attempted. -/
theorem small_size_rejected_before_target (cfg : Config) (attempts : Nat → Nat)
    (connectOk : Bool) (ok : Nat → Bool) (fuel r0 lcr : Nat) (h : cfg.size < 8) :
    Event.connectTarget ∉ (clientMain cfg attempts connectOk ok fuel r0 lcr).1 ∧
    (clientMain cfg attempts connectOk ok fuel r0 lcr).2.result =
      Except.error "Transaction size must be at least 8 bytes" ∧
    (clientMain cfg attempts connectOk ok fuel r0 lcr).2.attempted = [] := by
  refine ⟨?_, ?_, ?_⟩
  · show Event.connectTarget ∉
      waitEvents cfg.nodes attempts ++ (if cfg.size < 8 then [] else [Event.connectTarget])
    rw [if_pos h, List.append_nil]
    exact connectTarget_not_mem_waitEvents cfg.nodes attempts
  · show (clientSend cfg connectOk ok fuel r0 lcr).result = _
    rw [clientSend_sizeErr cfg connectOk ok fuel r0 lcr h]
  · show (clientSend cfg connectOk ok fuel r0 lcr).attempted = []
    rw [clientSend_sizeErr cfg connectOk ok fuel r0 lcr h]

/-- Claim C6 witness: a concrete size-5 configuration with two peers. -/
theorem small_size_rejected_before_target_witness :
    Event.connectTarget ∉
      (clientMain ⟨0, 5, 1, [3, 4], 0, false, true⟩ (fun _ => 1) true (fun _ => true) 1 0 0).1 ∧
    (clientMain ⟨0, 5, 1, [3, 4], 0, false, true⟩ (fun _ => 1) true (fun _ => true) 1 0 0).2.result =
      Except.error "Transaction size must be at least 8 bytes" ∧
    (clientMain ⟨0, 5, 1, [3, 4], 0, false, true⟩ (fun _ => 1) true (fun _ => true) 1 0 0).2.attempted = [] :=
  small_size_rejected_before_target ⟨0, 5, 1, [3, 4], 0, false, true⟩ (fun _ => 1) true
    (fun _ => true) 1 0 0 (by norm_num)

theorem mainLoop_honest_allOk_get (cfg : Config) (ok : Nat → Bool)
    (hh : cfg.honest = true) (hok : ∀ t, ok t = true) (hr : cfg.rate = 1)
    (fuel : Nat) (s : GenState) (i j : Nat) (hj : j < fuel) :
    (mainLoop cfg ok fuel s i).sent[j]? =
      some (samplePayload cfg.size (s.counter + j) s.load_client_rand) := by
  rw [mainLoop_honest_allOk cfg ok hh hok fuel s i, hr, flatMap_replicate_one,
    List.getElem?_map, List.getElem?_range hj]
  rfl

/-- Claim C7 counterexample: in a sample-mode run with rate 1, the payload of
burst 16777215 carries tag 16777215 while the payload of the next burst,
16777216, carries tag 0 — the masked 24-bit counter wraps, so across
successive bursts the tag value is not non-decreasing. -/
theorem sample_tag_wraps_cex :
    ((mainLoop ⟨0, 8, 1, [], 0, false, true⟩ (fun _ => true) (2 ^ 24 + 1)
        ⟨0, 0, 0⟩ 0).sent[2 ^ 24 - 1]?).map payloadTag = some (2 ^ 24 - 1) ∧
    ((mainLoop ⟨0, 8, 1, [], 0, false, true⟩ (fun _ => true) (2 ^ 24 + 1)
        ⟨0, 0, 0⟩ 0).sent[2 ^ 24]?).map payloadTag = some 0 := by
  constructor
  · rw [mainLoop_honest_allOk_get ⟨0, 8, 1, [], 0, false, true⟩ (fun _ => true) rfl
      (fun _ => rfl) rfl (2 ^ 24 + 1) ⟨0, 0, 0⟩ 0 (2 ^ 24 - 1) (by norm_num)]
    show some (payloadTag (samplePayload 8 (0 + (2 ^ 24 - 1)) 0)) = some (2 ^ 24 - 1)
    rw [samplePayload_tag 8 (0 + (2 ^ 24 - 1)) 0 (by norm_num)]
    norm_num
  · rw [mainLoop_honest_allOk_get ⟨0, 8, 1, [], 0, false, true⟩ (fun _ => true) rfl
      (fun _ => rfl) rfl (2 ^ 24 + 1) ⟨0, 0, 0⟩ 0 (2 ^ 24) (by norm_num)]
    show some (payloadTag (samplePayload 8 (0 + 2 ^ 24) 0)) = some 0
    rw [samplePayload_tag 8 (0 + 2 ^ 24) 0 (by norm_num)]
    norm_num

/-- Claim C7 (amended): in sample mode the payload of burst j carries tag
(initial counter + j) mod 2^24 — the counter with its most significant byte
masked off — so starting from counter 0 the tag increments 0, 1, 2, … and the
tag sequence is non-decreasing as long as the counter stays below 2^24; it
wraps back to 0 at burst 2^24. -/
theorem sample_tag_increments_masked (cfg : Config) (ok : Nat → Bool) (s : GenState)
    (i fuel : Nat) (hh : cfg.honest = true) (hok : ∀ t, ok t = true)
    (hr : cfg.rate = 1) (hs : 8 ≤ cfg.size) :
    (∀ j, j < fuel →
      ((mainLoop cfg ok fuel s i).sent[j]?).map payloadTag =
        some ((s.counter + j) % 2 ^ 24)) ∧
    (∀ j j', j ≤ j' → s.counter + j' < 2 ^ 24 →
      (s.counter + j) % 2 ^ 24 ≤ (s.counter + j') % 2 ^ 24) := by
  constructor
  · intro j hj
    rw [mainLoop_honest_allOk_get cfg ok hh hok hr fuel s i j hj]
    show some (payloadTag (samplePayload cfg.size (s.counter + j) s.load_client_rand)) = _
    rw [samplePayload_tag cfg.size (s.counter + j) s.load_client_rand hs]
  · intro j j' hle hlt
    omega

/-- Claim C7 witness: a concrete three-burst sample run with rate 1. -/
theorem sample_tag_increments_masked_witness :
    (∀ j, j < 3 →
      ((mainLoop ⟨0, 8, 1, [], 0, false, true⟩ (fun _ => true) 3 ⟨0, 0, 7⟩ 0).sent[j]?).map
        payloadTag = some ((0 + j) % 2 ^ 24)) ∧
    (∀ j j', j ≤ j' → 0 + j' < 2 ^ 24 → (0 + j) % 2 ^ 24 ≤ (0 + j') % 2 ^ 24) :=
  sample_tag_increments_masked ⟨0, 8, 1, [], 0, false, true⟩ (fun _ => true) ⟨0, 0, 7⟩ 0 3
    rfl (fun _ => rfl) rfl (by norm_num)

/-- Claim C8: the reachability barrier completes only after every listed peer
has accepted a connection at least once; each peer's independent probe
succeeds exactly at its first accepted attempt, sleeping 10 ms per failed
attempt, and retries with no timeout and no failure outcome — a peer that
never accepts makes the barrier never complete, for any amount of fuel; with
an empty peer list the barrier completes immediately, with zero fuel. -/
theorem barrier_awaitAll_spec (nodes : List Nat) (accepts : Nat → Nat → Bool) (fuel : Nat) :
    awaitAll [] accepts 0 = true ∧
    (awaitAll nodes accepts fuel = true → ∀ a ∈ nodes, ∃ t, accepts a t = true) ∧
    (∀ a ∈ nodes, (∀ t, accepts a t = false) → awaitAll nodes accepts fuel = false) ∧
    (∀ a k, probe (accepts a) fuel = some k →
      accepts a k = true ∧ (∀ t, t < k → accepts a t = false) ∧
      probeSleepMs (accepts a) fuel = some (10 * k)) := by
  refine ⟨rfl, ?_, ?_, ?_⟩
  · intro hall a ha
    have hsome := List.all_eq_true.mp hall a ha
    obtain ⟨k, hk⟩ := Option.isSome_iff_exists.mp (by simpa using hsome)
    exact ⟨k, (probe_spec fuel (accepts a) k hk).1⟩
  · intro a ha hnever
    refine Bool.eq_false_iff.mpr fun hall => ?_
    have hsome := List.all_eq_true.mp hall a ha
    rw [probe_none (accepts a) hnever fuel] at hsome
    simp at hsome
  · intro a k hk
    obtain ⟨h1, h2⟩ := probe_spec fuel (accepts a) k hk
    refine ⟨h1, h2, ?_⟩
    rw [probeSleepMs, hk]
    rfl

/-- Claim C8 witness: a peer accepting at its third attempt, a peer that never
accepts, and the corresponding probe outcome with its 20 ms of sleep. -/
theorem barrier_awaitAll_spec_witness :
    (∀ a ∈ [5], ∃ t, (fun (_ t : Nat) => t == 2) a t = true) ∧
    awaitAll [9] (fun _ _ => false) 3 = false ∧
    ((fun (_ t : Nat) => t == 2) 5 2 = true ∧
      (∀ t, t < 2 → (fun (_ t : Nat) => t == 2) 5 t = false) ∧
      probeSleepMs ((fun (_ t : Nat) => t == 2) 5) 4 = some (10 * 2)) :=
  ⟨(barrier_awaitAll_spec [5] (fun _ t => t == 2) 4).2.1 (by decide),
    (barrier_awaitAll_spec [9] (fun _ _ => false) 3).2.2.1 9 (by decide) (fun _ => rfl),
    (barrier_awaitAll_spec [5] (fun _ t => t == 2) 4).2.2.2 5 2 (by decide)⟩

/-- Claim C10: in filler mode the discriminator sequence starts at one plus
the random 32-bit draw r0 (modulo 2^32), not at a fixed origin: the first
payload's discriminator is (r0 + 1) mod 2^32, two runs whose draws differ
produce different first discriminators, and within one run each subsequent
discriminator is the previous one plus one modulo 2^32. -/
theorem filler_disc_random_origin (cfg : Config) (ok : Nat → Bool)
    (fuel r0 r0' lcr k : Nat) (hh : cfg.honest = false) (hs : ¬ cfg.size < 8)
    (h0 : r0 < 2 ^ 32) (h0' : r0' < 2 ^ 32) :
    (∀ p, (clientSend cfg true ok fuel r0 lcr).attempted[0]? = some p →
      payloadDisc p = (r0 + 1) % 2 ^ 32) ∧
    (r0 ≠ r0' → (r0 + 1) % 2 ^ 32 ≠ (r0' + 1) % 2 ^ 32) ∧
    (∀ p q, (clientSend cfg true ok fuel r0 lcr).attempted[k]? = some p →
      (clientSend cfg true ok fuel r0 lcr).attempted[k + 1]? = some q →
      payloadDisc q = (payloadDisc p + 1) % 2 ^ 32) := by
  have hr : ({ counter := 0, r := r0 % 2 ^ 32, load_client_rand := lcr % 2 ^ 32 } :
      GenState).r < 2 ^ 32 := Nat.mod_lt _ (by norm_num)
  have hdisc := mainLoop_filler_disc cfg ok
    ⟨0, r0 % 2 ^ 32, lcr % 2 ^ 32⟩ 0 fuel hh (by omega) hr
  have hatt : (clientSend cfg true ok fuel r0 lcr).attempted =
      (mainLoop cfg ok fuel ⟨0, r0 % 2 ^ 32, lcr % 2 ^ 32⟩ 0).sent := by
    rw [clientSend_run cfg ok fuel r0 lcr hs]
  refine ⟨?_, ?_, ?_⟩
  · intro p hp
    rw [hatt] at hp
    have := hdisc 0 p hp
    rw [this]
    show (r0 % 2 ^ 32 + 1 + 0) % 2 ^ 32 = _
    omega
  · intro hne
    omega
  · intro p q hp hq
    rw [hatt] at hp hq
    rw [hdisc k p hp, hdisc (k + 1) q hq]
    omega

/-- Claim C10 witness: a concrete filler run whose draw is 41: the first
discriminator is 42, a run drawing 50 starts elsewhere, and consecutive
payloads carry consecutive discriminators. -/
theorem filler_disc_random_origin_witness :
    (∀ p, (clientSend ⟨0, 8, 2, [], 0, false, false⟩ true (fun _ => true) 2 41 0).attempted[0]? =
        some p → payloadDisc p = (41 + 1) % 2 ^ 32) ∧
    (41 ≠ 50 → (41 + 1) % 2 ^ 32 ≠ (50 + 1) % 2 ^ 32) ∧
    (∀ p q, (clientSend ⟨0, 8, 2, [], 0, false, false⟩ true (fun _ => true) 2 41 0).attempted[1]? =
        some p →
      (clientSend ⟨0, 8, 2, [], 0, false, false⟩ true (fun _ => true) 2 41 0).attempted[1 + 1]? =
        some q →
      payloadDisc q = (payloadDisc p + 1) % 2 ^ 32) :=
  filler_disc_random_origin ⟨0, 8, 2, [], 0, false, false⟩ (fun _ => true) 2 41 50 0 1
    rfl (by norm_num) (by norm_num) (by norm_num)
